import Mathlib

/-!
Verification of the "AI Fundamental Rights Violation Screener" backend
(`main.py`): a shallow embedding of its data model, retrieval step, prompt
builder, reply normalizer, reply parser and the two endpoints, together with
theorems settling the specification claims.

Strings are modelled as their underlying character lists (`List Char`);
Python string operations (`in`, `split`, `strip`, the specific regular
expressions appearing in the source) are translated into explicit
executable functions on character lists.
-/

set_option maxRecDepth 100000

namespace FRS

abbrev Chars := List Char

/-- An article record from `data/cleaned_constitution_articles.json`:
`article_id` is mandatory, `summary` and `text` default to the empty string
(the source reads them with `a.get('summary','')` / `a.get('text','')`). -/
structure Article where
  article_id : String
  summary : String
  text : String
deriving DecidableEq

/-! ### Python string primitives -/

/-- Lower-casing of a character list (Python `str.lower` / `re.I` matching
on the ASCII letters that occur in the patterns of the source). -/
def listLower (t : Chars) : Chars := t.map Char.toLower

/-- Index of the first occurrence of `pat` in `t` (leftmost position at
which `pat` is a prefix of the remaining text), or `none`. -/
def findSub (pat : Chars) : Chars → Option Nat
  | [] => if pat.isPrefixOf [] then some 0 else none
  | c :: cs =>
    if pat.isPrefixOf (c :: cs) then some 0
    else (findSub pat cs).map (· + 1)

/-- Python `pat in t` (substring containment). -/
def containsSub (pat t : Chars) : Bool := (findSub pat t).isSome

/-- Text before the first occurrence of `pat` (the whole text when `pat`
does not occur): Python `t.split(pat)[0]`. -/
def beforeFirst (pat t : Chars) : Chars :=
  match findSub pat t with
  | none => t
  | some i => t.take i

/-- Text after the first occurrence of `pat` (meaningful only when `pat`
occurs; the source always guards the corresponding `split` with an `in`
check). -/
def afterFirstOcc (pat t : Chars) : Chars :=
  match findSub pat t with
  | none => []
  | some i => t.drop (i + pat.length)

/-- Python `t.split(pat)[1]`: the text strictly between the first and the
second occurrence of `pat`, i.e. everything after the first occurrence when
it is the only one. -/
def pyField1 (pat t : Chars) : Chars := beforeFirst pat (afterFirstOcc pat t)

/-- Python `t.split("\n")[0]`: the text up to the first newline. -/
def firstLine (t : Chars) : Chars := t.takeWhile (fun c => c != '\n')

/-- Python/regex ASCII whitespace (`str.strip`, `\s`). -/
def isPyWs (c : Char) : Bool :=
  c == ' ' || c == '\t' || c == '\n' || c == '\r' || c == '\x0b' || c == '\x0c'

/-- Python `t.strip()`. -/
def pyStrip (t : Chars) : Chars :=
  ((t.dropWhile isPyWs).reverse.dropWhile isPyWs).reverse

/-! ### The normalizer (`normalize_analysis_text`, main.py lines 181-213)

The source uses *raw* Python strings containing doubled backslashes, e.g.
`r"Violation Status:\\s*No\\b"`.  In a raw string `\\` is two characters, and
the regex engine reads `\\` as an escaped literal backslash, so this pattern
matches the literal text `Violation Status:` followed by a backslash, a run
of `s` characters, `No`, a backslash and `b` — not whitespace and not a word
boundary.  The embedding reproduces these patterns exactly as the regex
engine interprets them. -/

/-- Does the guard pattern `Violation Status:\\s*No\\b` (with `re.I`) match at
the head of `t`: case-insensitive `violation status:`, a literal backslash, a
run of `s`/`S`, case-insensitive `no`, a literal backslash, `b`/`B`. -/
def matchNoBackslashAt (t : Chars) : Bool :=
  "violation status:\\".toList.isPrefixOf (listLower t) &&
    "no\\b".toList.isPrefixOf
      (listLower ((t.drop 18).dropWhile (fun c => c == 's' || c == 'S')))

/-- `re.search(r"Violation Status:\\s*No\\b", text, re.I)` as a truth value. -/
def searchP1 (t : Chars) : Bool :=
  (List.range (t.length + 1)).any fun i => matchNoBackslashAt (t.drop i)

/-- `re.sub(r"(?i)Violation Status:.*", "Violation Status: No", text, count=1)`:
replace the first case-insensitive occurrence of `Violation Status:` together
with the rest of its line by the canonical status line. -/
def subStatusLine (t : Chars) : Chars :=
  match findSub "violation status:".toList (listLower t) with
  | none => t
  | some i =>
    t.take i ++ "Violation Status: No".toList ++ (t.drop i).dropWhile (fun c => c != '\n')

/-- Lookahead of the Explanation pattern: the literal text `\n\nWhat the
person can do next:` (with literal backslashes) or the literal text `\Z`. -/
def lookAB (t : Chars) : Bool :=
  "\\n\\nWhat the person can do next:".toList.isPrefixOf t ||
    "\\Z".toList.isPrefixOf t

/-- The match of `(?s)Explanation:\\s*.*?(?=\\n\\nWhat the person can do next:|\\Z)`
starting at position `i` of `t`: requires the literal text `Explanation:\` at
`i` and yields the least end position `j ≥ i + 13` at which the lookahead
holds (the `s*` run cannot change this least position since the lookahead
text does not start with `s`). -/
def matchP2From (t : Chars) (i : Nat) : Option Nat :=
  if "Explanation:\\".toList.isPrefixOf (t.drop i) then
    (List.range (t.length + 1)).find? fun j => decide (i + 13 ≤ j) && lookAB (t.drop j)
  else none

/-- Leftmost match `(start, end)` of the Explanation pattern in `t`. -/
def firstMatchP2 (t : Chars) : Option (Nat × Nat) :=
  (List.range (t.length + 1)).findSome? fun i => (matchP2From t i).map (fun j => (i, j))

/-- `re.search` of the Explanation pattern as a truth value. -/
def searchP2 (t : Chars) : Bool := (firstMatchP2 t).isSome

/-- `re.sub` of the Explanation pattern (all non-overlapping matches, each
replaced by the fixed message; the lookahead text is not consumed). -/
def subP2F : Nat → Chars → Chars
  | 0, t => t
  | fuel + 1, t =>
    match firstMatchP2 t with
    | none => t
    | some (i, j) =>
      t.take i ++ "Explanation:\nNo fundamental rights violation detected.".toList
        ++ subP2F fuel (t.drop j)

def subP2 (t : Chars) : Chars := subP2F (t.length + 1) t

/-- `re.search(r"(?s)What the person can do next:\\s*.*", text)`: requires the
literal text `What the person can do next:\` somewhere in `t`. -/
def searchP3 (t : Chars) : Bool :=
  containsSub "What the person can do next:\\".toList t

/-- `re.sub` of the next-steps pattern: the greedy `.*` under `(?s)` consumes
to the end of the text, so the single match spans from the start of the
literal text `What the person can do next:\` to the end; the replacement
template `\\n` is rendered by `re.sub` as a newline. -/
def subP3 (t : Chars) : Chars :=
  match findSub "What the person can do next:\\".toList t with
  | none => t
  | some i =>
    t.take i ++
      "What the person can do next:\nNo fundamental rights violation detected; no immediate action required.".toList

/-- `normalize_analysis_text` on character lists (main.py lines 181-213).
The two `else` branches concatenate plain Python strings in which `\\n` is a
literal backslash followed by `n`. -/
def normCore (t : Chars) : Chars :=
  if searchP1 t then
    let t1 := subStatusLine t
    let t2 :=
      if searchP2 t1 then subP2 t1
      else pyStrip t1 ++ "\\n\\nExplanation:\nNo fundamental rights violation detected.".toList
    let t3 :=
      if searchP3 t2 then subP3 t2
      else pyStrip t2 ++
        "\\n\\nWhat the person can do next:\\nNo fundamental rights violation detected; no immediate action required.".toList
    t3
  else t

def normalize_analysis_text (t : String) : String := String.mk (normCore t.data)

/-! ### The parser (`screen_scenario`, main.py lines 250-295) -/

/-- `"Violation Status:" in t and "Yes" in t.split("Violation Status:")[1].split("\n")[0]`. -/
def has_violation (t : Chars) : Bool :=
  containsSub "Violation Status:".toList t &&
    containsSub "Yes".toList (firstLine (pyField1 "Violation Status:".toList t))

structure StructuredViolation where
  status : String
  article : String
  explanation : String
  guidance : String
  confidence : ℚ
deriving DecidableEq

structure ScreenSummary where
  total_violations : Nat
  risk_level : String
  recommendations : List String
deriving DecidableEq

structure ScreenResponse where
  violations : List StructuredViolation
  summary : ScreenSummary
  raw_analysis : String
deriving DecidableEq

/-- The structured-result stage of `screen_scenario`, applied to the
(already normalized) analysis text. -/
def parse_screen (analysis_text : String) : ScreenResponse :=
  let t := analysis_text.data
  let hv := has_violation t
  let violations : List StructuredViolation :=
    if hv then
      let articles_section :=
        if containsSub "Violated Article(s):".toList t then
          String.mk (pyStrip (beforeFirst "Explanation:".toList
            (pyField1 "Violated Article(s):".toList t)))
        else ""
      let explanation :=
        if containsSub "Explanation:".toList t then
          String.mk (pyStrip (beforeFirst "What the person can do next:".toList
            (pyField1 "Explanation:".toList t)))
        else ""
      let guidance :=
        if containsSub "What the person can do next:".toList t then
          String.mk (pyStrip (pyField1 "What the person can do next:".toList t))
        else ""
      [{ status := "Violation Detected", article := articles_section,
         explanation := explanation, guidance := guidance, confidence := 0.95 }]
    else
      [{ status := "No Violation", article := "N/A",
         explanation := "No fundamental rights violation detected in this scenario.",
         guidance := "No immediate action required.", confidence := 0.95 }]
  { violations := violations
    summary :=
      { total_violations := (violations.filter (fun v => v.status = "Violation Detected")).length
        risk_level := if hv then "High" else "Low"
        recommendations :=
          [if hv then "Consult with a legal advisor for detailed guidance"
           else "Continue monitoring the situation"] }
    raw_analysis := analysis_text }

/-! ### Prompt builder (`build_prompt`, main.py lines 137-178) -/

/-- One rendered article block of the prompt (the f-string inside the loop of
`build_prompt`). -/
def article_block (art : Article) : String :=
  "\nArticle: " ++ art.article_id ++ "\nSummary: " ++ art.summary ++
    "\nFull Text: " ++ art.text ++ "\n---\n"

/-- The `article_text` accumulator loop of `build_prompt`. -/
def article_text_of (matched_articles : List Article) : String :=
  matched_articles.foldl (fun acc art => acc ++ article_block art) ""

/-- `build_prompt(user_scenario, matched_articles)`: the exact template of the
source, with the scenario and the accumulated article blocks interpolated
verbatim. -/
def build_prompt (user_scenario : String) (matched_articles : List Article) : String :=
  let article_text := article_text_of matched_articles
  "\nYou are a legal assistant specialized in Sri Lankan Fundamental Rights.\n\nUSER SCENARIO:\n\""
    ++ user_scenario
    ++ "\"\n\nRELEVANT CONSTITUTION ARTICLES:\n"
    ++ article_text
    ++ "\n\nTASK:\n- Decide whether this is a Fundamental Rights violation or not.\n- If YES, state the violated Article(s) using the format: ARTICLE <number> – <short summary title>.\n- Provide a short plain-language Explanation (1-3 short paragraphs).\n- Provide \"What the person can do next:\" with practical steps and mention Article 17 remedy if applicable.\n\nRESPONSE FORMAT (STRICT):\nProduce ONLY plain text (no markdown, no bold, no lists characters like '*', no HTML). Use the exact headings below followed by content.\n\nViolation Status: Yes or No\n\nViolated Article(s):\nARTICLE <number> – <short summary title>\n\nExplanation:\n<one or two short paragraphs explaining why this situation does or does not violate the Article>\n\nWhat the person can do next:\n<practical next steps; mention Article 17 remedy if applicable and simple evidence-collection suggestions>\n\nKeep language simple and concise, suitable for ordinary citizens. Do not include extra sections or commentary.\n"

/-! ### Retrieval (`search_relevant_articles`, main.py lines 131-134)

The sentence encoder and the faiss index are external library components;
they are modelled here by their documented semantics. -/

/-- A fixed-width embedding vector (components as exact rationals). -/
abbrev Vec := List ℚ

/-- Squared Euclidean distance between two embedding vectors (the metric of
`faiss.IndexFlatL2`). -/
def sqdist (u v : Vec) : ℚ := (List.zipWith (fun a b => (a - b) ^ 2) u v).sum

/-- The text embedded for each article at startup (main.py lines 53-56):
`f"{a['article_id']} - {a.get('summary','')} - {a.get('text','')}"`. -/
def fmtArticle (a : Article) : String :=
  a.article_id ++ " - " ++ a.summary ++ " - " ++ a.text

/-- The corpus rows of the similarity index: one embedding per article, in
corpus order. -/
def corpusVecs (enc : String → Vec) (arts : List Article) : List Vec :=
  arts.map (fun a => enc (fmtArticle a))

/-- Ordering of (row index, distance) pairs by distance. -/
def pairLE (a b : Nat × ℚ) : Prop := a.2 ≤ b.2

instance : DecidableRel pairLE := fun a b => (inferInstance : Decidable (a.2 ≤ b.2))

instance : IsTotal (Nat × ℚ) pairLE := ⟨fun a b => le_total a.2 b.2⟩

instance : IsTrans (Nat × ℚ) pairLE := ⟨fun _ _ _ h1 h2 => le_trans h1 h2⟩

/-- Modelled from the spec: the similarity index service (`faiss.IndexFlatL2`,
an external library component). `index.search(q, k)` returns the row indices
of the `k` stored vectors nearest to `q` by squared Euclidean distance, in
nearest-to-farthest order (fewer when the corpus holds fewer rows). -/
def knnIndices (vecs : List Vec) (q : Vec) (k : Nat) : List Nat :=
  ((List.insertionSort pairLE ((vecs.map (sqdist q)).enum)).take k).map Prod.fst

/-- `search_relevant_articles(user_input, top_k)`. -/
def search_relevant_articles (enc : String → Vec) (arts : List Article)
    (user_input : String) (top_k : Nat) : List Article :=
  (knnIndices (corpusVecs enc arts) (enc user_input) top_k).map
    (fun i => arts.getD i ⟨"", "", ""⟩)

/-! ### Model selection (`init_ai`, main.py lines 63-126) -/

/-- A provider model record as seen by the fallback discovery: its name and
its declared capability labels (`supported_generation_methods`). -/
structure MInfo where
  name : String
  supported : List String
deriving DecidableEq

/-- The fixed preferred model identifier list of the source. -/
def preferred : List String :=
  ["models/gemini-2.5-flash", "models/gemini-1.5-flash",
   "models/gemini-1.5-pro", "models/gemini-pro"]

/-- The capability filter of the fallback path: some label contains
`generate`, `content`, `text` or `chat` after lower-casing. -/
def supportsGenerate (caps : List String) : Bool :=
  caps.any fun item =>
    let s := listLower item.data
    containsSub "generate".toList s || containsSub "content".toList s ||
      containsSub "text".toList s || containsSub "chat".toList s

/-- The `available` list of the fallback path: discovered models with a
truthy (non-empty) name whose capabilities pass the filter. -/
def keptModels (ms : List MInfo) : List MInfo :=
  ms.filter fun m => (m.name != "") && supportsGenerate m.supported

/-- The model name bound by `init_ai`, as a function of the (deterministic)
instantiation outcome `inst` and of the provider's model-list reply: the
first preferred identifier that instantiates, else — from the discovered
models with a non-empty name passing the capability filter (none when the
list call itself fails) — the first preferred identifier occurring among
them, else the first of them; `none` when this too is empty. -/
def model_name_of (inst : String → Bool) (listM : Except String (List MInfo)) :
    Option String :=
  match preferred.find? inst with
  | some p => some p
  | none =>
    match (match listM with | .error _ => ([] : List MInfo) | .ok ms => keptModels ms) with
    | [] => none
    | m :: rest =>
      match preferred.find? (fun p => ((m :: rest).map (fun x => x.name)).contains p) with
      | some p => some p
      | none => some m.name

/-- The outcome of `init_ai`'s model binding: the "No suitable generative
model" exception when no name is selected, otherwise the final
`genai.GenerativeModel(model_name)` call of line 125, which is outside any
`try` block and therefore surfaces an instantiation failure directly. -/
def init_ai_result (inst : String → Bool) (listM : Except String (List MInfo)) :
    Except String String :=
  match model_name_of inst listM with
  | none => .error "No suitable generative model available. Run ListModels to see options."
  | some n => if inst n then .ok n else .error "GenerativeModel instantiation error"

/-! ### Endpoints (main.py lines 216-296) -/

/-- A fastapi `HTTPException` as raised by the endpoints. -/
structure HTTPException where
  status_code : Nat
  detail : String
deriving DecidableEq

/-- `POST /analyze`: top-3 retrieval, prompt, reasoner call; a reasoner
failure is surfaced as a status-500 `HTTPException` carrying the error
message, a reply is returned as the raw analysis text. -/
def analyze (enc : String → Vec) (arts : List Article)
    (reasoner : String → Except String String) (scenario : String) :
    Except HTTPException String :=
  let matched := search_relevant_articles enc arts scenario 3
  let prompt := build_prompt scenario matched
  match reasoner prompt with
  | .error e => .error ⟨500, e⟩
  | .ok t => .ok t

/-- `POST /screen-scenario`: top-5 retrieval, prompt, reasoner call,
normalization, structured parsing. -/
def screen_scenario (enc : String → Vec) (arts : List Article)
    (reasoner : String → Except String String) (scenario : String) :
    Except HTTPException ScreenResponse :=
  let matched := search_relevant_articles enc arts scenario 5
  let prompt := build_prompt scenario matched
  match reasoner prompt with
  | .error e => .error ⟨500, e⟩
  | .ok t => .ok (parse_screen (normalize_analysis_text t))

/-! ### Spec-side predicates -/

/-- Modelled from the spec: does the *intended* normalizer guard pattern
`Violation Status:\s*No` (case-insensitive, with real whitespace) match at
the head of `t`. -/
def matchSpecNoAt (t : Chars) : Bool :=
  "violation status:".toList.isPrefixOf (listLower t) &&
    "no".toList.isPrefixOf (listLower ((t.drop 17).dropWhile isPyWs))

/-- Modelled from the spec: `re.search` of the intended guard pattern
`Violation Status:\s*No` (case-insensitive) over the whole text. -/
def specNoMatch (t : Chars) : Bool :=
  (List.range (t.length + 1)).any fun i => matchSpecNoAt (t.drop i)

/-! ### Claims C1 and C6: the normalizer's guard regex

In the source the raw strings double every backslash, so the compiled
patterns require *literal* backslash characters: a reply whose status line
really reads `Violation Status: No` never triggers the guard, while a text
containing the literal characters `Violation Status:\No\b` does. -/

/-- C1 (code bug): the reply below has a status line matching
`Violation Status: No` case-insensitively, so by the claim the normalizer
must rewrite its Explanation and next-steps sections to the fixed short
messages; the code returns it completely unchanged, because its guard
pattern `r"Violation Status:\\s*No\\b"` only matches a literal backslash. -/
theorem c1_normalizer_never_fires :
    specNoMatch ("Violation Status: No\n\nExplanation:\nThe detention was lawful.\n\nWhat the person can do next:\nNothing.").data = true ∧
    normalize_analysis_text "Violation Status: No\n\nExplanation:\nThe detention was lawful.\n\nWhat the person can do next:\nNothing."
      = "Violation Status: No\n\nExplanation:\nThe detention was lawful.\n\nWhat the person can do next:\nNothing." := by
  decide

/-- C6 (code bug): the text `Violation Status:\No\b` (with literal
backslashes) does not match the spec's no-op premise pattern
`Violation Status:\s*No` (case-insensitive), so by the claim the normalizer
must return it unchanged; the code's literal-backslash guard fires on it and
rewrites it. -/
theorem c6_normalizer_rewrites_nonmatching_input :
    specNoMatch ("Violation Status:\\No\\b").data = false ∧
    normalize_analysis_text "Violation Status:\\No\\b"
      = "Violation Status: No\\n\\nExplanation:\nNo fundamental rights violation detected.\\n\\nWhat the person can do next:\\nNo fundamental rights violation detected; no immediate action required." ∧
    normalize_analysis_text "Violation Status:\\No\\b" ≠ "Violation Status:\\No\\b" := by
  refine ⟨by decide, by decide, by decide⟩

/-! ### Claims C4, C5, C10: invariants of the structured result -/

/-- C4: every ScreenScenario structured result has exactly one
StructuredViolation record; `summary.total_violations` is 1 when
`has_violation` holds and 0 otherwise; `summary.risk_level` is `"High"`
exactly when `has_violation` holds. -/
theorem c4_summary_invariants (t : String) :
    (parse_screen t).violations.length = 1 ∧
    (parse_screen t).summary.total_violations = (if has_violation t.data then 1 else 0) ∧
    ((parse_screen t).summary.risk_level = "High" ↔ has_violation t.data = true) := by
  by_cases h : has_violation t.data <;> simp [parse_screen, h]

/-- C5: whenever `has_violation` is false, the parser emits the single fixed
"No Violation" record, independent of the analysis text. -/
theorem c5_fixed_no_violation_record (t : String) (h : has_violation t.data = false) :
    (parse_screen t).violations =
      [{ status := "No Violation", article := "N/A",
         explanation := "No fundamental rights violation detected in this scenario.",
         guidance := "No immediate action required.", confidence := 0.95 }] := by
  simp [parse_screen, h]

/-- Witness for C5 at the spec's own scenario reply text. -/
theorem c5_fixed_no_violation_record_witness :
    (parse_screen "A citizen paid their electricity bill on time").violations =
      [{ status := "No Violation", article := "N/A",
         explanation := "No fundamental rights violation detected in this scenario.",
         guidance := "No immediate action required.", confidence := 0.95 }] :=
  c5_fixed_no_violation_record _ (by decide)

/-- C10: both branches of the parser hard-code `confidence := 0.95`, so the
one structured record always carries confidence 0.95 whatever the text. -/
theorem c10_confidence_constant (t : String) :
    (parse_screen t).violations.map (fun v => v.confidence) = [0.95] := by
  by_cases h : has_violation t.data <;> simp [parse_screen, h]

/-! ### Claim C3: the `has_violation` check

Position-level characterization of `findSub`, used to compare the code's
`split`-based computation with the spec's description of the segment
following the first `Violation Status:` occurrence. -/

/-- `pat` occurs in `t` at position `i`. -/
def OccursAt (pat t : Chars) (i : Nat) : Prop := pat <+: t.drop i

/-- `i` is the position of the *first* occurrence of `pat` in `t`. -/
def FirstOccAt (pat t : Chars) (i : Nat) : Prop :=
  OccursAt pat t i ∧ ∀ j < i, ¬ OccursAt pat t j

theorem findSub_eq_none_iff (pat t : Chars) :
    findSub pat t = none ↔ ∀ i, ¬ OccursAt pat t i := by
  induction t with
  | nil =>
    simp only [findSub, OccursAt, List.drop_nil]
    by_cases h : pat.isPrefixOf ([] : Chars)
    · rw [List.isPrefixOf_iff_prefix] at h
      simp [if_pos (List.isPrefixOf_iff_prefix.mpr h), h]
    · have h' : ¬ pat <+: ([] : Chars) := fun hp => h (List.isPrefixOf_iff_prefix.mpr hp)
      simp only [h, if_false]
      simp [h']
  | cons c cs ih =>
    simp only [findSub]
    by_cases h : pat.isPrefixOf (c :: cs)
    · rw [List.isPrefixOf_iff_prefix] at h
      simp only [List.isPrefixOf_iff_prefix.mpr h, if_true]
      constructor
      · intro hs; exact absurd hs (by simp)
      · intro hall; exact absurd h (by simpa [OccursAt] using hall 0)
    · rw [if_neg h, Option.map_eq_none', ih]
      constructor
      · intro hall i
        match i with
        | 0 =>
          simpa [OccursAt, List.isPrefixOf_iff_prefix] using h
        | i + 1 =>
          simpa [OccursAt] using hall i
      · intro hall i
        simpa [OccursAt] using hall (i + 1)

theorem findSub_eq_some_iff (pat t : Chars) (i : Nat) :
    findSub pat t = some i ↔ FirstOccAt pat t i := by
  induction t generalizing i with
  | nil =>
    simp only [findSub]
    by_cases h : pat.isPrefixOf ([] : Chars)
    · rw [List.isPrefixOf_iff_prefix] at h
      simp only [List.isPrefixOf_iff_prefix.mpr h, if_true]
      constructor
      · rintro hp
        have : i = 0 := by simpa using hp.symm
        subst this
        exact ⟨by simpa [OccursAt] using h, by omega⟩
      · rintro ⟨_, hmin⟩
        by_contra hne
        have hi : 0 < i := by
          rcases Nat.eq_zero_or_pos i with h0 | h0
          · exact absurd (by rw [h0]) hne
          · exact h0
        exact hmin 0 hi (by simpa [OccursAt] using h)
    · have h' : ¬ pat <+: ([] : Chars) := fun hp => h (List.isPrefixOf_iff_prefix.mpr hp)
      simp only [h, if_false]
      constructor
      · intro hc; cases hc
      · rintro ⟨hocc, _⟩
        exact absurd (by simpa [OccursAt] using hocc) h'
  | cons c cs ih =>
    simp only [findSub]
    by_cases h : pat.isPrefixOf (c :: cs)
    · have hpre := List.isPrefixOf_iff_prefix.mp h
      simp only [h, if_true]
      constructor
      · rintro hp
        have : i = 0 := by simpa using hp.symm
        subst this
        exact ⟨by simpa [OccursAt] using hpre, by omega⟩
      · rintro ⟨_, hmin⟩
        by_contra hne
        have hi : 0 < i := by
          rcases Nat.eq_zero_or_pos i with h0 | h0
          · exact absurd (by rw [h0]) hne
          · exact h0
        exact hmin 0 hi (by simpa [OccursAt] using hpre)
    · have h' : ¬ pat <+: (c :: cs) := fun hp => h (List.isPrefixOf_iff_prefix.mpr hp)
      simp only [h, if_false]
      constructor
      · intro hp
        rcases Option.map_eq_some'.mp hp with ⟨i', hi', rfl⟩
        rcases (ih i').mp hi' with ⟨hocc, hmin⟩
        refine ⟨by simpa [OccursAt] using hocc, ?_⟩
        intro j hj
        match j with
        | 0 => simpa [OccursAt] using h'
        | j + 1 =>
          have : j < i' := by omega
          simpa [OccursAt] using hmin j this
      · rintro ⟨hocc, hmin⟩
        match i with
        | 0 => exact absurd (by simpa [OccursAt] using hocc) h'
        | i + 1 =>
          have hfo : FirstOccAt pat cs i := by
            refine ⟨by simpa [OccursAt] using hocc, ?_⟩
            intro j hj
            have : j + 1 < i + 1 := by omega
            simpa [OccursAt] using hmin (j + 1) this
          rw [(ih i).mpr hfo]
          rfl

theorem infix_iff_exists_drop (pat t : Chars) :
    pat <:+: t ↔ ∃ i, pat <+: t.drop i := by
  constructor
  · rintro ⟨s, u, rfl⟩
    exact ⟨s.length, by simp [List.drop_left, List.prefix_append]⟩
  · rintro ⟨i, u, hu⟩
    exact ⟨t.take i, u, by rw [List.append_assoc, hu, List.take_append_drop]⟩

theorem containsSub_correct (pat t : Chars) :
    containsSub pat t = true ↔ pat <:+: t := by
  rw [infix_iff_exists_drop]
  unfold containsSub
  constructor
  · intro hs
    rcases Option.isSome_iff_exists.mp hs with ⟨i, hi⟩
    exact ⟨i, ((findSub_eq_some_iff pat t i).mp hi).1⟩
  · rintro ⟨i, hocc⟩
    cases hfind : findSub pat t with
    | none => exact absurd hocc ((findSub_eq_none_iff pat t).mp hfind i)
    | some j => simp [hfind]

/-- Modelled from the spec's words for C3 (the claim as written): the first
line of the text following the first occurrence of `Violation Status:` —
*not* clipped at a later occurrence — contains `Yes`. -/
def hvFollowingFirst (t : Chars) : Bool :=
  containsSub "Violation Status:".toList t &&
    containsSub "Yes".toList (firstLine (afterFirstOcc "Violation Status:".toList t))

/-- C3 counterexample: when a second `Violation Status:` occurrence sits on
the same line before the `Yes`, the code's `split`-based check looks only at
the text *between* the two occurrences and evaluates false, while the claim
(first line of the segment following the first occurrence) evaluates true. -/
theorem c3_counterexample_second_occurrence_on_line :
    hvFollowingFirst ("Violation Status: A Violation Status: Yes").data = true ∧
    has_violation ("Violation Status: A Violation Status: Yes").data = false := by
  decide

/-- The spec-level description of Python's `t.split(pat)[1]`: `w` is the
text strictly between the first occurrence of `pat` and the following one,
or everything after the first occurrence when there is no second one. -/
def SegmentUpToNext (pat v w : Chars) : Prop :=
  (∃ j, FirstOccAt pat v j ∧ w = v.take j) ∨ ((∀ j, ¬ OccursAt pat v j) ∧ w = v)

/-- C3 amended: `has_violation` is true iff the text has a first occurrence
of `Violation Status:` and the first line of the segment *between that
occurrence and the next one* (everything after it when it is the only one)
contains `Yes`; in particular a text with no occurrence at all yields
false. -/
theorem c3_has_violation_characterization (t : Chars) :
    has_violation t = true ↔
      ∃ i, FirstOccAt "Violation Status:".toList t i ∧
        ∃ w, SegmentUpToNext "Violation Status:".toList (t.drop (i + 17)) w ∧
          "Yes".toList <:+: firstLine w := by
  unfold has_violation
  cases hfs : findSub "Violation Status:".toList t with
  | none =>
    have hocc := (findSub_eq_none_iff _ t).mp hfs
    simp only [containsSub, hfs, Option.isSome_none, Bool.false_and,
      Bool.false_eq_true, false_iff]
    rintro ⟨i, hfo, _⟩
    exact hocc i hfo.1
  | some i =>
    have hfo := (findSub_eq_some_iff _ t i).mp hfs
    have hlen : ("Violation Status:".toList : Chars).length = 17 := by decide
    have hafter : afterFirstOcc "Violation Status:".toList t = t.drop (i + 17) := by
      unfold afterFirstOcc
      rw [hfs, hlen]
    have hcs : containsSub "Violation Status:".toList t = true := by
      unfold containsSub
      rw [hfs]
      rfl
    rw [hcs, Bool.true_and]
    set v := t.drop (i + 17) with hv
    have hfield : pyField1 "Violation Status:".toList t =
        beforeFirst "Violation Status:".toList v := by
      unfold pyField1
      rw [hafter]
    constructor
    · intro hyes
      refine ⟨i, hfo, beforeFirst "Violation Status:".toList v, ?_, ?_⟩
      · unfold beforeFirst
        cases hfs2 : findSub "Violation Status:".toList v with
        | none => exact Or.inr ⟨(findSub_eq_none_iff _ v).mp hfs2, rfl⟩
        | some j => exact Or.inl ⟨j, (findSub_eq_some_iff _ v j).mp hfs2, rfl⟩
      · rw [hfield] at hyes
        exact (containsSub_correct _ _).mp hyes
    · rintro ⟨i', hfo', w, hseg, hyes⟩
      have hii : i' = i := by
        have := (findSub_eq_some_iff _ t i').mpr hfo'
        rw [hfs] at this
        exact (Option.some_inj.mp this).symm
      subst hii
      have hw : w = beforeFirst "Violation Status:".toList v := by
        rcases hseg with ⟨j, hj, rfl⟩ | ⟨hnone, rfl⟩
        · unfold beforeFirst
          rw [(findSub_eq_some_iff _ v j).mpr hj]
        · unfold beforeFirst
          rw [(findSub_eq_none_iff _ v).mpr hnone]
      rw [hfield, ← hw]
      exact (containsSub_correct _ _).mpr hyes

/-! ### Claim C7: purity and verbatim interpolation of the prompt builder -/

theorem data_append (a b : String) : (a ++ b).data = a.data ++ b.data := rfl

theorem infix_str_left {m : Chars} (a b : String) (h : m <:+: a.data) :
    m <:+: (a ++ b).data := by
  rw [data_append]
  exact h.trans ⟨[], b.data, by simp⟩

theorem infix_str_right {m : Chars} (a b : String) (h : m <:+: b.data) :
    m <:+: (a ++ b).data := by
  rw [data_append]
  exact h.trans ⟨a.data, [], by simp⟩

theorem foldl_articles_extends :
    ∀ (l : List Article) (init : String),
      init.data <+: (l.foldl (fun acc art => acc ++ article_block art) init).data := by
  intro l
  induction l with
  | nil => intro init; exact List.prefix_refl _
  | cons b l ih =>
    intro init
    have h2 := ih (init ++ article_block b)
    rw [data_append] at h2
    exact (List.prefix_append init.data (article_block b).data).trans h2

theorem article_block_infix_text (l : List Article) (a : Article) (ha : a ∈ l) :
    (article_block a).data <:+: (article_text_of l).data := by
  unfold article_text_of
  generalize ("" : String) = init
  induction l generalizing init with
  | nil => cases ha
  | cons b l ih =>
    rcases List.mem_cons.mp ha with rfl | ha'
    · rcases foldl_articles_extends l (init ++ article_block a) with ⟨rest, hrest⟩
      rw [data_append] at hrest
      exact ⟨init.data, rest, by rw [List.foldl_cons, ← hrest, List.append_assoc]⟩
    · exact ih ha' (init ++ article_block b)

/-- C7: `build_prompt` is a pure deterministic function — equal (scenario,
articles) inputs give the identical prompt string — and the scenario and
each matched article's id, summary and text appear verbatim (as contiguous
character runs) in the prompt. -/
theorem c7_build_prompt_pure (s : String) (arts : List Article) :
    build_prompt s arts = build_prompt s arts ∧
    s.data <:+: (build_prompt s arts).data ∧
    ∀ a ∈ arts,
      a.article_id.data <:+: (build_prompt s arts).data ∧
      a.summary.data <:+: (build_prompt s arts).data ∧
      a.text.data <:+: (build_prompt s arts).data := by
  refine ⟨rfl, ?_, ?_⟩
  · unfold build_prompt
    exact infix_str_left _ _ (infix_str_left _ _ (infix_str_left _ _
      (infix_str_right _ _ (List.infix_refl _))))
  · intro a ha
    have hblock : (article_block a).data <:+: (build_prompt s arts).data := by
      unfold build_prompt
      exact infix_str_left _ _ (infix_str_right _ _ (article_block_infix_text arts a ha))
    refine ⟨?_, ?_, ?_⟩
    · exact ((infix_str_left _ _ (infix_str_left _ _ (infix_str_left _ _ (infix_str_left _ _
        (infix_str_left _ _ (infix_str_right _ _ (List.infix_refl _))))))) :
          a.article_id.data <:+: (article_block a).data).trans hblock
    · exact ((infix_str_left _ _ (infix_str_left _ _ (infix_str_left _ _
        (infix_str_right _ _ (List.infix_refl _))))) :
          a.summary.data <:+: (article_block a).data).trans hblock
    · exact ((infix_str_left _ _ (infix_str_right _ _
        (List.infix_refl _))) : a.text.data <:+: (article_block a).data).trans hblock

/-- Witness for C7 at a concrete scenario and article. -/
theorem c7_build_prompt_pure_witness :
    ("ARTICLE 11" : String).data <:+:
        (build_prompt "a scenario" [⟨"ARTICLE 11", "a summary", "full text"⟩]).data ∧
    ("a summary" : String).data <:+:
        (build_prompt "a scenario" [⟨"ARTICLE 11", "a summary", "full text"⟩]).data ∧
    ("full text" : String).data <:+:
        (build_prompt "a scenario" [⟨"ARTICLE 11", "a summary", "full text"⟩]).data :=
  (c7_build_prompt_pure "a scenario" [⟨"ARTICLE 11", "a summary", "full text"⟩]).2.2
    ⟨"ARTICLE 11", "a summary", "full text"⟩ (by simp)

/-! ### Claim C8: error propagation of the endpoints -/

/-- C8: a reasoner failure makes either endpoint fail with a status-500
error carrying the underlying message (no retry, no partial result), while a
present reply never makes ScreenScenario fail — and a reply whose only
recognizable header is a `Violation Status:` yes-line parses to a structured
record whose section fields are all empty strings. -/
theorem c8_reasoner_error_propagation :
    (∀ (enc : String → Vec) (arts : List Article) (r : String → Except String String) s e,
        r (build_prompt s (search_relevant_articles enc arts s 3)) = .error e →
        analyze enc arts r s = .error ⟨500, e⟩) ∧
    (∀ (enc : String → Vec) (arts : List Article) (r : String → Except String String) s e,
        r (build_prompt s (search_relevant_articles enc arts s 5)) = .error e →
        screen_scenario enc arts r s = .error ⟨500, e⟩) ∧
    (∀ (enc : String → Vec) (arts : List Article) (r : String → Except String String) s t,
        r (build_prompt s (search_relevant_articles enc arts s 5)) = .ok t →
        screen_scenario enc arts r s = .ok (parse_screen (normalize_analysis_text t))) ∧
    (∀ t : String, has_violation t.data = true →
        containsSub "Violated Article(s):".toList t.data = false →
        containsSub "Explanation:".toList t.data = false →
        containsSub "What the person can do next:".toList t.data = false →
        (parse_screen t).violations =
          [{ status := "Violation Detected", article := "", explanation := "",
             guidance := "", confidence := 0.95 }]) := by
  refine ⟨?_, ?_, ?_, ?_⟩
  · intro enc arts r s e h
    simp only [analyze, h]
  · intro enc arts r s e h
    simp only [screen_scenario, h]
  · intro enc arts r s t h
    simp only [screen_scenario, h]
  · intro t h h1 h2 h3
    simp only [parse_screen, h, h1, h2, h3]
    simp

/-- Witness for C8 with a constant-failure reasoner, a constant-reply
reasoner, and a header-free yes-reply. -/
theorem c8_reasoner_error_propagation_witness :
    analyze (fun _ => []) [] (fun _ => .error "quota exceeded") "s" = .error ⟨500, "quota exceeded"⟩ ∧
    screen_scenario (fun _ => []) [] (fun _ => .error "quota exceeded") "s" = .error ⟨500, "quota exceeded"⟩ ∧
    screen_scenario (fun _ => []) [] (fun _ => .ok "Violation Status: Yes") "s" =
      .ok (parse_screen (normalize_analysis_text "Violation Status: Yes")) ∧
    (parse_screen "Violation Status: Yes").violations =
      [{ status := "Violation Detected", article := "", explanation := "",
         guidance := "", confidence := 0.95 }] :=
  ⟨c8_reasoner_error_propagation.1 _ _ _ _ _ rfl,
   c8_reasoner_error_propagation.2.1 _ _ _ _ _ rfl,
   c8_reasoner_error_propagation.2.2.1 _ _ _ _ _ rfl,
   c8_reasoner_error_propagation.2.2.2 _ (by decide) (by decide) (by decide) (by decide)⟩

/-! ### Claim C9: model-selection policy of `init_ai` -/

/-- C9 counterexample: with every instantiation failing and the provider
listing one usable model, the fallback *does* yield a model
(`models/custom`), yet initialization still fails — the final
`genai.GenerativeModel(model_name)` call on line 125 sits outside every
`try` block, so its failure escapes even though the fallback succeeded.
This refutes the claim's "raises a fatal error if and only if this
fallback also yields no model". -/
theorem c9_counterexample_fallback_model_fails_to_bind :
    model_name_of (fun _ => false) (.ok [⟨"models/custom", ["generateContent"]⟩]) =
      some "models/custom" ∧
    init_ai_result (fun _ => false) (.ok [⟨"models/custom", ["generateContent"]⟩]) =
      .error "GenerativeModel instantiation error" :=
  ⟨rfl, rfl⟩

/-- C9 amended: initialization fails iff the selection yields no model *or*
instantiating the selected (necessarily fallback-chosen) model fails; a
preferred identifier that instantiates is bound directly; the capability
filter keeps exactly the models with a non-empty name one of whose labels
contains `generate`, `content`, `text` or `chat` case-insensitively; a
fallback-selected name is always a kept model's name, preferred among the
kept names whenever any preferred identifier occurs there; and when no
preferred identifier occurs among the kept names the fallback binds exactly
the *first* kept model (and yields no model exactly when the kept list is
empty). -/
theorem c9_model_selection (inst : String → Bool) (listM : Except String (List MInfo)) :
    ((∃ e, init_ai_result inst listM = .error e) ↔
      (model_name_of inst listM = none ∨
        ∃ n, model_name_of inst listM = some n ∧ inst n = false)) ∧
    (∀ p, preferred.find? inst = some p → init_ai_result inst listM = .ok p) ∧
    (∀ m : MInfo,
      ((m.name != "") && supportsGenerate m.supported) = true ↔
        (m.name ≠ "" ∧ ∃ c ∈ m.supported, ∃ kw ∈ ["generate", "content", "text", "chat"],
          (kw.toList : Chars) <:+: listLower c.data)) ∧
    (∀ ms, preferred.find? inst = none → listM = .ok ms →
      ∀ n, model_name_of inst listM = some n →
        n ∈ (keptModels ms).map (fun m => m.name) ∧
        ((∃ p ∈ preferred, p ∈ (keptModels ms).map (fun m => m.name)) → n ∈ preferred)) ∧
    (∀ ms, preferred.find? inst = none → listM = .ok ms →
      (keptModels ms = [] → model_name_of inst listM = none) ∧
      (∀ m rest, keptModels ms = m :: rest →
        (∀ p ∈ preferred, p ∉ (m :: rest).map (fun x => x.name)) →
          model_name_of inst listM = some m.name)) := by
  refine ⟨?_, ?_, ?_, ?_, ?_⟩
  · unfold init_ai_result
    cases h : model_name_of inst listM with
    | none => simp
    | some n =>
      by_cases hi : inst n
      · simp [hi]
      · simp only [Bool.not_eq_true] at hi
        simp [hi]
  · intro p hp
    have hmn : model_name_of inst listM = some p := by
      unfold model_name_of
      rw [hp]
    have hip : inst p = true := List.find?_some hp
    unfold init_ai_result
    rw [hmn]
    simp [hip]
  · intro m
    simp only [Bool.and_eq_true, bne_iff_ne, ne_eq, supportsGenerate, List.any_eq_true,
      Bool.or_eq_true, containsSub_correct]
    constructor
    · rintro ⟨hn, c, hc, hkw⟩
      refine ⟨hn, c, hc, ?_⟩
      rcases hkw with ((h1 | h2) | h3) | h4
      · exact ⟨"generate", by simp, h1⟩
      · exact ⟨"content", by simp, h2⟩
      · exact ⟨"text", by simp, h3⟩
      · exact ⟨"chat", by simp, h4⟩
    · rintro ⟨hn, c, hc, kw, hkwmem, hkwinf⟩
      refine ⟨hn, c, hc, ?_⟩
      simp only [List.mem_cons, List.not_mem_nil, or_false] at hkwmem
      rcases hkwmem with rfl | rfl | rfl | rfl
      · exact Or.inl (Or.inl (Or.inl hkwinf))
      · exact Or.inl (Or.inl (Or.inr hkwinf))
      · exact Or.inl (Or.inr hkwinf)
      · exact Or.inr hkwinf
  · intro ms hfind hok n hn
    subst hok
    unfold model_name_of at hn
    rw [hfind] at hn
    dsimp only at hn
    cases hk : keptModels ms with
    | nil => rw [hk] at hn; cases hn
    | cons m rest =>
      rw [hk] at hn
      dsimp only at hn
      cases hf2 : preferred.find? (fun p => ((m :: rest).map (fun x => x.name)).contains p) with
      | some p =>
        rw [hf2] at hn
        have hnp : n = p := by
          simpa using hn.symm
        subst hnp
        have hcontains : ((m :: rest).map (fun x => x.name)).contains n = true :=
          List.find?_some hf2
        have hmem : n ∈ (m :: rest).map (fun x => x.name) := by
          simpa [List.contains] using hcontains
        exact ⟨hmem, fun _ => List.mem_of_find?_eq_some hf2⟩
      | none =>
        rw [hf2] at hn
        have hnm : n = m.name := by
          simpa using hn.symm
        subst hnm
        refine ⟨List.mem_map_of_mem (fun x => x.name) (List.mem_cons_self m rest), ?_⟩
        rintro ⟨p, hpmem, hpkept⟩
        exact absurd (by simpa [List.contains] using hpkept)
          (by simpa using (List.find?_eq_none.mp hf2) p hpmem)
  · intro ms hfind hok
    subst hok
    constructor
    · intro hk
      unfold model_name_of
      rw [hfind]
      dsimp only
      rw [hk]
    · intro m rest hk hnone
      have hf2 : preferred.find? (fun p => ((m :: rest).map (fun x => x.name)).contains p)
          = none := by
        rw [List.find?_eq_none]
        intro p hp
        simpa [List.contains] using hnone p hp
      unfold model_name_of
      rw [hfind]
      dsimp only
      rw [hk]
      dsimp only
      rw [hf2]

/-- Witness for C9: a preferred model that instantiates is bound directly,
a fallback-selected model name is a kept name, preferred when possible, and
without a preferred match the first kept model is bound. -/
theorem c9_model_selection_witness :
    init_ai_result (fun s => s == "models/gemini-pro") (.error "boom") = .ok "models/gemini-pro" ∧
    "models/gemini-1.5-flash" ∈
      (keptModels [⟨"models/gemini-1.5-flash", ["chatty"]⟩]).map (fun m => m.name) ∧
    "models/gemini-1.5-flash" ∈ preferred ∧
    model_name_of (fun _ => false)
      (.ok [⟨"text-bison-legacy", ["supportsText"]⟩, ⟨"other-model", ["chatMode"]⟩]) =
      some "text-bison-legacy" := by
  have h := (c9_model_selection (fun _ => false)
      (.ok [⟨"models/gemini-1.5-flash", ["chatty"]⟩])).2.2.2.1
      [⟨"models/gemini-1.5-flash", ["chatty"]⟩] (by decide) rfl
      "models/gemini-1.5-flash" (by decide)
  refine ⟨(c9_model_selection (fun s => s == "models/gemini-pro") (.error "boom")).2.1
    "models/gemini-pro" (by decide), h.1,
    h.2 ⟨"models/gemini-1.5-flash", by decide, h.1⟩, ?_⟩
  exact ((c9_model_selection (fun _ => false)
      (.ok [⟨"text-bison-legacy", ["supportsText"]⟩, ⟨"other-model", ["chatMode"]⟩])).2.2.2.2
      [⟨"text-bison-legacy", ["supportsText"]⟩, ⟨"other-model", ["chatMode"]⟩]
      (by decide) rfl).2
    ⟨"text-bison-legacy", ["supportsText"]⟩ [⟨"other-model", ["chatMode"]⟩]
    (by decide) (by decide)

/-! ### Claim C2: retrieval returns the k nearest articles, nearest first -/

/-- Distance of corpus row `i` from the query `q`: squared Euclidean
distance between the query embedding and the row's embedding. -/
def rowDist (enc : String → Vec) (arts : List Article) (q : String) (i : Nat) : ℚ :=
  sqdist (enc q) ((corpusVecs enc arts).getD i [])

theorem pairs_fact (enc : String → Vec) (arts : List Article) (q : String)
    (p : Nat × ℚ) (hp : p ∈ ((corpusVecs enc arts).map (sqdist (enc q))).enum) :
    p.1 < arts.length ∧ p.2 = rowDist enc arts q p.1 := by
  have h := List.mem_enum_iff_getElem?.mp hp
  rcases List.getElem?_eq_some.mp h with ⟨hlt, hval⟩
  have hlen : ((corpusVecs enc arts).map (sqdist (enc q))).length = arts.length := by
    simp [corpusVecs]
  have hlt2 : p.1 < (corpusVecs enc arts).length := by
    simpa [corpusVecs] using hlt
  constructor
  · rw [← hlen]; exact hlt
  · rw [← hval, List.getElem_map, rowDist, List.getD_eq_getElem _ _ hlt2]

/-- C2: `search_relevant_articles` maps the index's k-nearest row indices to
article records; those indices number `min k n`, are distinct in-range rows,
are ordered nearest-to-farthest by squared Euclidean distance, and every
selected row is at least as near as every unselected row; the Analyze
endpoint retrieves with `k = 3` and ScreenScenario with `k = 5` (observed by
an identity reasoner receiving the prompt built from the top-3, resp. top-5,
retrieval). -/
theorem c2_retrieval_k_nearest (enc : String → Vec) (arts : List Article) (q : String) (k : Nat) :
    search_relevant_articles enc arts q k =
      (knnIndices (corpusVecs enc arts) (enc q) k).map (fun i => arts.getD i ⟨"", "", ""⟩) ∧
    (knnIndices (corpusVecs enc arts) (enc q) k).length = min k arts.length ∧
    List.Pairwise (fun i j => rowDist enc arts q i ≤ rowDist enc arts q j)
      (knnIndices (corpusVecs enc arts) (enc q) k) ∧
    (knnIndices (corpusVecs enc arts) (enc q) k).Nodup ∧
    (∀ i ∈ knnIndices (corpusVecs enc arts) (enc q) k, i < arts.length) ∧
    (∀ i ∈ knnIndices (corpusVecs enc arts) (enc q) k, ∀ j < arts.length,
      j ∉ knnIndices (corpusVecs enc arts) (enc q) k →
        rowDist enc arts q i ≤ rowDist enc arts q j) ∧
    analyze enc arts (fun p => .ok p) q =
      .ok (build_prompt q (search_relevant_articles enc arts q 3)) ∧
    screen_scenario enc arts (fun p => .ok p) q =
      .ok (parse_screen (normalize_analysis_text
        (build_prompt q (search_relevant_articles enc arts q 5)))) := by
  have hL : ((corpusVecs enc arts).map (sqdist (enc q))).length = arts.length := by
    simp [corpusVecs]
  set L := (corpusVecs enc arts).map (sqdist (enc q)) with hLdef
  set pairs := L.enum with hpairs
  set sorted := List.insertionSort pairLE pairs with hsorted
  have hperm : sorted.Perm pairs := List.perm_insertionSort pairLE pairs
  have hknn : knnIndices (corpusVecs enc arts) (enc q) k = (sorted.take k).map Prod.fst := rfl
  have hmemfact : ∀ p ∈ sorted.take k, p.1 < arts.length ∧ p.2 = rowDist enc arts q p.1 := by
    intro p hp
    exact pairs_fact enc arts q p
      (hperm.mem_iff.mp ((List.take_sublist k sorted).mem hp))
  refine ⟨rfl, ?_, ?_, ?_, ?_, ?_, rfl, rfl⟩
  · rw [hknn, List.length_map, List.length_take, hperm.length_eq, List.enum_length, hL]
  · rw [hknn]
    refine List.pairwise_map.mpr ?_
    have hs : List.Pairwise pairLE (sorted.take k) :=
      List.Pairwise.sublist (List.take_sublist k sorted)
        (List.sorted_insertionSort pairLE pairs)
    refine hs.imp_of_mem ?_
    intro a b ha hb hab
    have hfa := (hmemfact a ha).2
    have hfb := (hmemfact b hb).2
    calc rowDist enc arts q a.1 = a.2 := hfa.symm
      _ ≤ b.2 := hab
      _ = rowDist enc arts q b.1 := hfb
  · rw [hknn, List.map_take]
    refine (List.take_sublist k _).nodup ?_
    have hmapperm : (sorted.map Prod.fst).Perm (pairs.map Prod.fst) := hperm.map _
    rw [hmapperm.nodup_iff, hpairs, List.enum_map_fst]
    exact List.nodup_range _
  · intro i hi
    rw [hknn] at hi
    rcases List.mem_map.mp hi with ⟨p, hp, rfl⟩
    exact (hmemfact p hp).1
  · intro i hi j hjlt hjnot
    rw [hknn] at hi hjnot
    rcases List.mem_map.mp hi with ⟨pi, hpi, rfl⟩
    have hjL : j < L.length := by rw [hL]; exact hjlt
    have hpj : ((j, L[j]) : Nat × ℚ) ∈ pairs :=
      List.mem_enum_iff_getElem?.mpr (List.getElem?_eq_getElem hjL)
    have hpjsorted : ((j, L[j]) : Nat × ℚ) ∈ sorted := hperm.mem_iff.mpr hpj
    rw [← List.take_append_drop k sorted] at hpjsorted
    rcases List.mem_append.mp hpjsorted with hin | hdrop
    · exact absurd (List.mem_map_of_mem Prod.fst hin) hjnot
    · have hsfull : List.Pairwise pairLE sorted := List.sorted_insertionSort pairLE pairs
      have hsplit : List.Pairwise pairLE (sorted.take k ++ sorted.drop k) := by
        rw [List.take_append_drop]
        exact hsfull
      have hcross := (List.pairwise_append.mp hsplit).2.2 pi hpi _ hdrop
      have hdj : L[j] = rowDist enc arts q j := by
        have := pairs_fact enc arts q (j, L[j]) hpj
        exact this.2
      calc rowDist enc arts q pi.1 = pi.2 := (hmemfact pi hpi).2.symm
        _ ≤ L[j] := hcross
        _ = rowDist enc arts q j := hdj

/-- Witness for C2 on a two-article corpus with a length-based encoder:
row 1 is selected for `k = 1`, lies in range, and is at least as near as the
unselected row 0. -/
theorem c2_retrieval_k_nearest_witness :
    (1 : Nat) < ([⟨"A1", "", ""⟩, ⟨"B22", "", ""⟩] : List Article).length ∧
    rowDist (fun s => [(s.length : ℚ)]) [⟨"A1", "", ""⟩, ⟨"B22", "", ""⟩] "123456789" 1 ≤
      rowDist (fun s => [(s.length : ℚ)]) [⟨"A1", "", ""⟩, ⟨"B22", "", ""⟩] "123456789" 0 := by
  have h := c2_retrieval_k_nearest (fun s => [(s.length : ℚ)])
    [⟨"A1", "", ""⟩, ⟨"B22", "", ""⟩] "123456789" 1
  have hknn : knnIndices (corpusVecs (fun s => [(s.length : ℚ)])
      [⟨"A1", "", ""⟩, ⟨"B22", "", ""⟩]) ((fun s => [(s.length : ℚ)]) "123456789") 1 = [1] := by
    norm_num [knnIndices, corpusVecs,
      show fmtArticle (⟨"A1", "", ""⟩ : Article) = "A1 -  - " from rfl,
      show fmtArticle (⟨"B22", "", ""⟩ : Article) = "B22 -  - " from rfl,
      show ("A1 -  - " : String).length = 8 from rfl,
      show ("B22 -  - " : String).length = 9 from rfl,
      show ("123456789" : String).length = 9 from rfl,
      sqdist, List.insertionSort, List.orderedInsert, pairLE]
  refine ⟨h.2.2.2.2.1 1 ?_, h.2.2.2.2.2.1 1 ?_ 0 (by norm_num) ?_⟩
  · rw [hknn]; simp
  · rw [hknn]; simp
  · rw [hknn]; simp

end FRS
